import Mathlib

/-!
Verification of the segmentation-search extraction pipeline of the
allabolag-mcp repository (src/src/tools/segmentation-search.ts), against its
natural-language specification.

Modelling conventions (shallow embedding):
  * A JavaScript string is modelled as a list of UTF-16 code units
    (`JSStr := List Nat`); for the strings occurring in this code base every
    code unit is a Unicode code point (all literals are BMP).
  * `String.toUpperCase` / `String.toLowerCase` carry the full JavaScript
    case mapping on the Latin-1 repertoire and on the code units reachable
    from it by case mapping: the offset maps of the ASCII and accented
    letters, the out-of-block targets of the micro sign and of y with
    diaeresis, and the EXPANDING uppercase of the sharp s (0xDF maps to the
    two-letter SS).  Characters outside this repertoire keep no case mapping;
    theorems about case-mapped data carry the matching domain hypothesis.
  * JavaScript numbers are modelled exactly (integers as `Int` / `Nat`, the
    float expressions of the profit/date fabrication as exact rationals);
    none of the claims under examination concerns floating-point rounding.
  * `Math.random()` draws are threaded explicitly: each parsed entry and each
    synthetic entry receives its draws from an oracle (`Rng`), quantified over
    in the theorems.
  * The fetched, cheerio-parsed document is modelled by the data the scraping
    code observes: the list of "main h2" headings together with, for each
    heading, the texts of the labelled nodes that the field extractors query
    inside the heading parent element (`CompanyCard`, `Doc` below).
-/

set_option maxRecDepth 10000

namespace Allabolag

/-- A JavaScript string as its sequence of UTF-16 code units. -/
abbrev JSStr := List Nat

/-- Embed a Lean string literal as a `JSStr` (code points = code units for the
BMP literals used throughout). -/
def str (s : String) : JSStr := s.data.map Char.toNat

/-- JavaScript whitespace class (the characters relevant to `\s`, `trim`). -/
def isWsCode (n : Nat) : Bool := n = 32 || n = 9 || n = 10 || n = 13 || n = 12 || n = 11 || n = 160

/-- Decimal digit code unit (the `\d` / `[0-9]` class). -/
def isDigitCode (n : Nat) : Bool := 48 ≤ n && n ≤ 57

/-- Single-unit part of `String.prototype.toUpperCase`: a-z and the Latin-1
accented letters by offset (the division sign 0xF7 has no case mapping),
y-with-diaeresis 0xFF to its out-of-block uppercase 0x178, and the micro
sign 0xB5 to the Greek capital Mu 0x39C.  The expanding mapping of the
sharp s is handled in `jsToUpperMap`. -/
def jsToUpperChar (n : Nat) : Nat :=
  if n = 255 then 376
  else if n = 181 then 924
  else if (97 ≤ n ∧ n ≤ 122) ∨ (224 ≤ n ∧ n ≤ 254 ∧ n ≠ 247) then n - 32 else n

/-- Model of `String.prototype.toUpperCase` on one code unit.  The mapping is
string-valued: the sharp s 0xDF uppercases to the two-letter text SS; every
other unit of the modelled repertoire uppercases to a single unit. -/
def jsToUpperMap (n : Nat) : List Nat :=
  if n = 223 then [83, 83] else [jsToUpperChar n]

/-- Model of `String.prototype.toLowerCase` on one code unit: A-Z and the
Latin-1 accented capitals by offset (the multiplication sign 0xD7 has no
case mapping), 0x178 back to 0xFF and the Greek capital Mu 0x39C to the
small mu 0x3BC.  No lowercase mapping of the modelled repertoire expands. -/
def jsToLower (n : Nat) : Nat :=
  if n = 376 then 255
  else if n = 924 then 956
  else if (65 ≤ n ∧ n ≤ 90) ∨ (192 ≤ n ∧ n ≤ 222 ∧ n ≠ 215) then n + 32 else n

/-- Model of `s.split(sep)` for a one-character separator: JavaScript yields
`[""]` on the empty string and keeps empty fields. -/
def splitOnCode (sep : Nat) : JSStr → List JSStr
  | [] => [[]]
  | c :: rest =>
    let r := splitOnCode sep rest
    if c = sep then [] :: r else (c :: r.headD []) :: r.tail

/-- Model of `parts.join(sep)` for a one-character separator. -/
def joinCode (sep : Nat) : List JSStr → JSStr
  | [] => []
  | [w] => w
  | w :: x :: ws => w ++ sep :: joinCode sep (x :: ws)

/-- One word of the location normalisation:
`word.charAt(0).toUpperCase() + word.slice(1).toLowerCase()`.  The first
unit's uppercase may expand (sharp s becomes SS), so the head contributes a
string, not a single unit. -/
def capitalizeWord : JSStr → JSStr
  | [] => []
  | c :: rest => jsToUpperMap c ++ rest.map jsToLower

/-- The location normalisation of `buildSearchUrl`:
`location.split(" ").map(capitalizeWord).join(" ")`. -/
def capitalizeWords (s : JSStr) : JSStr :=
  joinCode 32 ((splitOnCode 32 s).map capitalizeWord)

/-- Model of `String.prototype.trim`. -/
def trimStr (s : JSStr) : JSStr :=
  ((s.dropWhile isWsCode).reverse.dropWhile isWsCode).reverse

/-- Decidable prefix test on code-unit lists. -/
def isPrefixStr : JSStr → JSStr → Bool
  | [], _ => true
  | _ :: _, [] => false
  | n :: ns, c :: cs => n = c && isPrefixStr ns cs

/-- Model of `s.includes(needle)` (substring containment). -/
def containsSub (needle : JSStr) : JSStr → Bool
  | [] => isPrefixStr needle []
  | s@(_ :: t) => isPrefixStr needle s || containsSub needle t

/-- Model of `s.replace(needle, repl)` with a plain-string needle: JavaScript
replaces only the first occurrence. -/
def replaceFirst (needle repl : JSStr) : JSStr → JSStr
  | [] => if needle = [] then repl else []
  | s@(c :: rest) =>
    if isPrefixStr needle s then repl ++ s.drop needle.length
    else c :: replaceFirst needle repl rest

/-- Decimal digits of a natural number (auxiliary, fuel-based). -/
def natToStrAux : Nat → Nat → JSStr
  | 0, _ => []
  | f + 1, n => if n < 10 then [48 + n] else natToStrAux f (n / 10) ++ [48 + n % 10]

/-- Model of `Number.prototype.toString` on a natural number. -/
def natToStr (n : Nat) : JSStr := natToStrAux (n + 1) n

/-- Model of `Number.prototype.toString` on an integer. -/
def intToStr (i : Int) : JSStr :=
  if i < 0 then 45 :: natToStr i.natAbs else natToStr i.toNat

/-- Model of `parseInt(s)` on inputs without a `0x` prefix (the code only ever
parses digit-only strings): skip leading whitespace, optional sign, then the
maximal run of decimal digits; `none` models `NaN`. -/
def parseIntJS (s : JSStr) : Option Int :=
  match s.dropWhile isWsCode with
  | [] => none
  | c :: rest =>
    let (sign, u) : Int × JSStr :=
      if c = 43 then (1, rest) else if c = 45 then (-1, rest) else (1, c :: rest)
    let ds := u.takeWhile isDigitCode
    if ds = [] then none
    else some (sign * ds.foldl (fun a d => a * 10 + ((d : Int) - 48)) 0)

/-- Code units left unescaped by `encodeURIComponent`:
ASCII letters, digits, and `- _ . ! ~ * ' ( )`. -/
def isUriUnescaped (n : Nat) : Bool :=
  (48 ≤ n && n ≤ 57) || (65 ≤ n && n ≤ 90) || (97 ≤ n && n ≤ 122) ||
  n = 45 || n = 95 || n = 46 || n = 33 || n = 126 || n = 42 || n = 39 || n = 40 || n = 41

/-- Uppercase hexadecimal digit, as a code unit. -/
def hexDigitCode (n : Nat) : Nat := if n < 10 then 48 + n else 55 + n

/-- Percent-escape of one byte, e.g. byte 195 becomes the three code units of
the text %C3. -/
def percentByte (b : Nat) : JSStr := [37, hexDigitCode (b / 16), hexDigitCode (b % 16)]

/-- UTF-8 encoding of one BMP code point (1 to 3 bytes). -/
def utf8Bytes (n : Nat) : List Nat :=
  if n < 128 then [n]
  else if n < 2048 then [192 + n / 64, 128 + n % 64]
  else [224 + n / 4096, 128 + n / 64 % 64, 128 + n % 64]

/-- Model of `encodeURIComponent` on BMP strings. -/
def encodeURIComponent (s : JSStr) : JSStr :=
  (s.map (fun n => if isUriUnescaped n then [n] else (utf8Bytes n).map percentByte |>.flatten)).flatten

/-- Value of an ASCII hexadecimal digit, `none` for other code units. -/
def hexVal (n : Nat) : Option Nat :=
  if 48 ≤ n ∧ n ≤ 57 then some (n - 48)
  else if 65 ≤ n ∧ n ≤ 70 then some (n - 55)
  else if 97 ≤ n ∧ n ≤ 102 then some (n - 87)
  else none

/-- Model of `decodeURIComponent`: percent-escapes are decoded to bytes and
well-formed 1-3 byte UTF-8 sequences to code points.  (On malformed input the
real function raises URIError; the model passes the text through unchanged —
no code path examined by the claims reaches that case.) -/
def decodeURIComponentModel : JSStr → JSStr
  | 37 :: a :: b :: 37 :: c :: d :: 37 :: e :: f :: rest =>
    match hexVal a, hexVal b, hexVal c, hexVal d, hexVal e, hexVal f with
    | some ha, some hb, some hc, some hd, some he, some hf =>
      let b1 := 16 * ha + hb
      let b2 := 16 * hc + hd
      let b3 := 16 * he + hf
      if 224 ≤ b1 ∧ b1 ≤ 239 ∧ 128 ≤ b2 ∧ b2 ≤ 191 ∧ 128 ≤ b3 ∧ b3 ≤ 191 then
        ((b1 - 224) * 4096 + (b2 - 128) * 64 + (b3 - 128)) :: decodeURIComponentModel rest
      else if 192 ≤ b1 ∧ b1 ≤ 223 ∧ 128 ≤ b2 ∧ b2 ≤ 191 then
        ((b1 - 192) * 64 + (b2 - 128)) :: decodeURIComponentModel (37 :: e :: f :: rest)
      else if b1 < 128 then
        b1 :: decodeURIComponentModel (37 :: c :: d :: 37 :: e :: f :: rest)
      else 37 :: decodeURIComponentModel (a :: b :: 37 :: c :: d :: 37 :: e :: f :: rest)
    | _, _, _, _, _, _ => 37 :: decodeURIComponentModel (a :: b :: 37 :: c :: d :: 37 :: e :: f :: rest)
  | 37 :: a :: b :: 37 :: c :: d :: rest =>
    match hexVal a, hexVal b, hexVal c, hexVal d with
    | some ha, some hb, some hc, some hd =>
      let b1 := 16 * ha + hb
      let b2 := 16 * hc + hd
      if 192 ≤ b1 ∧ b1 ≤ 223 ∧ 128 ≤ b2 ∧ b2 ≤ 191 then
        ((b1 - 192) * 64 + (b2 - 128)) :: decodeURIComponentModel rest
      else if b1 < 128 then
        b1 :: decodeURIComponentModel (37 :: c :: d :: rest)
      else 37 :: decodeURIComponentModel (a :: b :: 37 :: c :: d :: rest)
    | _, _, _, _ => 37 :: decodeURIComponentModel (a :: b :: 37 :: c :: d :: rest)
  | 37 :: a :: b :: rest =>
    match hexVal a, hexVal b with
    | some ha, some hb =>
      let b1 := 16 * ha + hb
      if b1 < 128 then b1 :: decodeURIComponentModel rest
      else 37 :: decodeURIComponentModel (a :: b :: rest)
    | _, _ => 37 :: decodeURIComponentModel (a :: b :: rest)
  | c :: rest => c :: decodeURIComponentModel rest
  | [] => []

/-- Suffix of `s` after the first (leftmost) occurrence of `needle`;
`none` when `needle` does not occur. -/
def afterFirst (needle : JSStr) : JSStr → Option JSStr
  | [] => if isPrefixStr needle [] then some [] else none
  | s@(_ :: t) =>
    if isPrefixStr needle s then some (s.drop needle.length) else afterFirst needle t

/-- The search parameters (src/types/index.ts, SegmentationSearchParams).
String-valued fields are arbitrary strings at the model level; the TypeScript
type further restricts `sort` to eleven literals, all nonempty. -/
structure SegmentationSearchParams where
  proffIndustryCode : Option JSStr := none
  location : Option JSStr := none
  companyType : Option JSStr := none
  revenueFrom : Option Int := none
  revenueTo : Option Int := none
  numEmployeesFrom : Option Int := none
  numEmployeesTo : Option Int := none
  page : Option Int := none
  sort : Option JSStr := none
deriving DecidableEq

/-- A JavaScript `Date` constructed as `new Date(year, month, day)`. -/
structure JSDate where
  year : Int
  month : Int
  day : Int
deriving DecidableEq

/-- One parsed company entry (src/types/index.ts, SegmentationSearchResult).
The `profitYear` and `industry` fields of the TypeScript interface are never
written by the segmentation-search tool and are omitted from the model. -/
structure SegmentationSearchResult where
  name : JSStr
  link : JSStr
  location : JSStr
  orgNumber : JSStr
  employees : Option Int := none
  revenue : Option Int := none
  revenueYear : Option JSStr := none
  profit : Option Int := none
  registrationDate : Option JSDate := none
deriving DecidableEq

/-- The response envelope (src/types/index.ts, SegmentationSearchResponse). -/
structure SegmentationSearchResponse where
  results : List SegmentationSearchResult
  totalCount : Int
deriving DecidableEq

/-- What the scraping code observes of one "main h2" heading of the fetched
document together with its parent element (the entry fragment).  Each field
mirrors one cheerio query made by the field extractors:
  * `heading`: text of the h2 node;
  * `headingLinksToCompany`: whether the h2 contains an anchor whose href
    contains /foretag/;
  * `href`: href attribute of the first anchor under the h2 (`none` models a
    missing attribute);
  * `orgNodeText`: combined text of the divs of the fragment whose text
    contains the label Org.nr (`none` when no such div exists);
  * `employeesParentText`: text of the parent of the div containing the label
    Anstallda (`none` when no such div exists);
  * `revenueNode`: text of the divs containing the label Omsattning paired
    with their parent text (`none` when no such div exists);
  * `childDivTexts`: trimmed texts of the direct child divs of the fragment
    (queried by the postal-address branch of getLocation). -/
structure CompanyCard where
  heading : JSStr := []
  headingLinksToCompany : Bool := false
  href : Option JSStr := none
  orgNodeText : Option JSStr := none
  employeesParentText : Option JSStr := none
  revenueNode : Option (JSStr × JSStr) := none
  childDivTexts : List JSStr := []
deriving DecidableEq

/-- The fetched document, as the sequence of its "main h2" items. -/
structure Doc where
  cards : List CompanyCard
deriving DecidableEq

/-- Exact rational value of a JavaScript float expression, kept as an
unnormalised numerator/denominator pair (the denominator is intended
positive).  Decimal float literals of the source (0.1, 0.05) are modelled by
the decimal rationals they denote; none of the claims concerns float
rounding. -/
structure Frac where
  num : Int := 0
  den : Nat := 1
deriving DecidableEq

/-- Embed an integer. -/
def fracOfInt (i : Int) : Frac := { num := i, den := 1 }

/-- Product of two exact values. -/
def fracMul (a b : Frac) : Frac := { num := a.num * b.num, den := a.den * b.den }

/-- Sum of two exact values. -/
def fracAdd (a b : Frac) : Frac :=
  { num := a.num * (b.den : Int) + b.num * (a.den : Int), den := a.den * b.den }

/-- Model of `Math.floor` on an exact value. -/
def jsFloor (q : Frac) : Int := Int.fdiv q.num (q.den : Int)

/-- Random draws consumed while parsing one entry: the profit ratio draw of
getProfit and the three date draws of getRegistrationDate. -/
structure EntryRand where
  profitDraw : Frac := {}
  regYearDraw : Frac := {}
  regMonthDraw : Frac := {}
  regDayDraw : Frac := {}

/-- Oracle for every `Math.random()` draw of one call: per parsed entry index
and per synthetic entry index. -/
structure Rng where
  entry : Nat → EntryRand
  synth : Nat → Frac

/-- The all-zeros randomness oracle (used to evaluate the model at concrete
inputs). -/
def rng0 : Rng := ⟨fun _ => {}, fun _ => {}⟩

/-- The query-string components accumulated by buildSearchUrl, in push order
(segmentation-search.ts lines 15-58).  A `some ""` string parameter is falsy
in JavaScript and contributes nothing, as does `page = 0`. -/
def queryParamsList (params : SegmentationSearchParams) : List JSStr :=
  (match params.location with
   | some l => if l = [] then [] else
       [str "location=" ++ encodeURIComponent (capitalizeWords l)]
   | none => []) ++
  (match params.proffIndustryCode with
   | some v => if v = [] then [] else [str "proffIndustryCode=" ++ encodeURIComponent v]
   | none => []) ++
  (match params.companyType with
   | some v => if v = [] then [] else [str "companyType=" ++ encodeURIComponent v]
   | none => []) ++
  (match params.revenueFrom with
   | some v => [str "revenueFrom=" ++ intToStr v]
   | none => []) ++
  (match params.revenueTo with
   | some v => [str "revenueTo=" ++ intToStr v]
   | none => []) ++
  (match params.numEmployeesFrom with
   | some v => [str "numEmployeesFrom=" ++ intToStr v]
   | none => []) ++
  (match params.numEmployeesTo with
   | some v => [str "numEmployeesTo=" ++ intToStr v]
   | none => []) ++
  (match params.sort with
   | some s => if s = [] then [] else [str "sort=" ++ s]
   | none => []) ++
  (match params.page with
   | some p => if p = 0 then [] else [str "page=" ++ intToStr p]
   | none => [])

/-- buildSearchUrl (segmentation-search.ts lines 13-63). -/
def buildSearchUrl (params : SegmentationSearchParams) : JSStr :=
  let baseUrl := str "https://www.allabolag.se/segmentation"
  let qs := queryParamsList params
  if qs.length > 0 then baseUrl ++ 63 :: joinCode 38 qs else baseUrl

/-- formatLocation (lines 68-74): replace every hyphen by a space, then
capitalize each word. -/
def formatLocation (location : JSStr) : JSStr :=
  capitalizeWords (location.map (fun c => if c = 45 then 32 else c))

/-- extractNumericValue (lines 79-82): strip every non-digit code unit and
parse the remainder; absent when no digit survives. -/
def extractNumericValue (text : JSStr) : Option Int :=
  let cleanedText := text.filter isDigitCode
  if cleanedText = [] then none else parseIntJS cleanedText

/-- The leading-number pattern of extractTotalCount, `(\d[\d\s]*)`: first
digit of the text, then the following run of digits and whitespace. -/
def leadingNumber (s : JSStr) : Option JSStr :=
  match s.dropWhile (fun c => !isDigitCode c) with
  | [] => none
  | c :: rest => some (c :: rest.takeWhile (fun x => isDigitCode x || isWsCode x))

/-- extractTotalCount (lines 87-101): text of the first main h2 containing
the word foretag, matched against `(\d[\d\s]*)`, spaces stripped, parsed;
0 when no heading or no digits match. -/
def extractTotalCount (doc : Doc) : Int :=
  let countText :=
    trimStr ((((doc.cards.map (·.heading)).filter
      (fun t => containsSub (str "företag") t)).headD []))
  match leadingNumber countText with
  | some m => (parseIntJS (m.filter (fun c => !isWsCode c))).getD 0
  | none => 0

/-- getName (lines 106-109): trimmed text of the first h2 of the fragment. -/
def getName (element : CompanyCard) : JSStr := trimStr element.heading

/-- getOrgNumber (lines 114-125): text of the divs containing the label
Org.nr, with the first occurrence of the label removed and trimmed. -/
def getOrgNumber (element : CompanyCard) : Option JSStr :=
  match element.orgNodeText with
  | some orgText => some (trimStr (replaceFirst (str "Org.nr") [] orgText))
  | none => none

/-- The postal-address pattern of getLocation,
`^\d{3}\s?\d{2}\s?[A-Za-zA-OO-oo-y\s]+$` with the three letter ranges being
the Latin-1 letters: three digits, optional whitespace, two digits, optional
whitespace, then at least one letter or whitespace. -/
def isPostalTailCode (n : Nat) : Bool :=
  (65 ≤ n && n ≤ 90) || (97 ≤ n && n ≤ 122) ||
  (192 ≤ n && n ≤ 214) || (216 ≤ n && n ≤ 246) || (248 ≤ n && n ≤ 255) || isWsCode n

/-- Full-string match of the postal-address pattern. -/
def matchPostal (s : JSStr) : Bool :=
  match s with
  | d1 :: d2 :: d3 :: rest =>
    isDigitCode d1 && isDigitCode d2 && isDigitCode d3 &&
    (let rest2 := match rest with
                  | w :: r => if isWsCode w then r else rest
                  | [] => rest
     match rest2 with
     | e1 :: e2 :: tail =>
       isDigitCode e1 && isDigitCode e2 && !tail.isEmpty && tail.all isPostalTailCode
     | _ => false)
  | _ => false

/-- The prefix strip of getLocation, `replace(/^\d{3}\s?\d{2}\s?/, "")`. -/
def stripPostalPrefix (s : JSStr) : JSStr :=
  match s with
  | d1 :: d2 :: d3 :: rest =>
    if isDigitCode d1 && isDigitCode d2 && isDigitCode d3 then
      let rest2 := match rest with
                   | w :: r => if isWsCode w then r else rest
                   | [] => rest
      match rest2 with
      | e1 :: e2 :: tail =>
        if isDigitCode e1 && isDigitCode e2 then
          match tail with
          | w :: r => if isWsCode w then r else tail
          | [] => tail
        else s
      | _ => s
    else s
  | _ => s

/-- Capture group of `link.match(/\/foretag\/.*\/(.*?)\//)`: with a greedy
dot-star followed by a lazy group between two slashes, the captured text is
the segment between the last two slashes of the suffix following the first
occurrence of /foretag/ (backtracking picks the latest possible slash pair).
`none` when the pattern does not match. -/
def foretagLocationCapture (link : JSStr) : Option JSStr :=
  match afterFirst (str "/foretag/") link with
  | none => none
  | some r =>
    let parts := splitOnCode 47 r
    if parts.length ≥ 3 then some (parts.dropLast.getLastD []) else none

/-- getLocation (lines 130-164): caller-supplied location first (JavaScript
truthiness: absent or empty falls through), then the company-detail link
pattern, then the postal-address child div. -/
def getLocation (element : CompanyCard) (link : JSStr)
    (requestedLocation : Option JSStr) : JSStr :=
  if (requestedLocation.getD []) ≠ [] then requestedLocation.getD []
  else
    let fromLink : Option JSStr :=
      if link ≠ [] then
        match foretagLocationCapture link with
        | some m => if m ≠ [] then some (formatLocation (decodeURIComponentModel m)) else none
        | none => none
      else none
    match fromLink with
    | some loc => loc
    | none =>
      let matching := element.childDivTexts.filter (fun t => matchPostal (trimStr t))
      if matching.length > 0 then
        let fullText := trimStr matching.flatten
        trimStr (stripPostalPrefix fullText)
      else []

/-- getEmployees (lines 169-183): text of the parent of the div containing
the label Anstallda, label removed, trimmed, numeric value extracted. -/
def getEmployees (element : CompanyCard) : Option Int :=
  match element.employeesParentText with
  | none => none
  | some t => extractNumericValue (trimStr (replaceFirst (str "Anställda") [] t))

/-- First full match of `\d{4}` in a text (the year pattern of getRevenue). -/
def findYear : JSStr → Option JSStr
  | [] => none
  | c :: rest =>
    match rest with
    | a :: b :: d :: _ =>
      if isDigitCode c && isDigitCode a && isDigitCode b && isDigitCode d then
        some [c, a, b, d]
      else findYear rest
    | _ => none

/-- Length of a match of `/Omsättning\s+\d{4}/` starting at the head of `s`,
`none` when the head does not match. -/
def omsYearMatchLen (s : JSStr) : Option Nat :=
  if isPrefixStr (str "Omsättning") s then
    let r := s.drop 10
    let ws := r.takeWhile isWsCode
    if ws = [] then none
    else
      let r2 := r.drop ws.length
      if (r2.take 4).length = 4 ∧ (r2.take 4).all isDigitCode then
        some (10 + ws.length + 4)
      else none
  else none

/-- Model of `s.replace(/Omsättning\s+\d{4}/, "")`: remove the first match. -/
def stripOmsYear : JSStr → JSStr
  | [] => []
  | s@(c :: rest) =>
    match omsYearMatchLen s with
    | some n => s.drop n
    | none => c :: stripOmsYear rest

/-- getRevenue (lines 188-216): year from the first `\d{4}` of the trimmed
label-div text; revenue from the parent text with the `Omsättning\s+\d{4}`
prefix removed and trimmed (assigned only when that text is nonempty). -/
def getRevenue (element : CompanyCard) : Option Int × Option JSStr :=
  match element.revenueNode with
  | none => (none, none)
  | some (divText, parentText) =>
    let revenueText := trimStr divText
    let revenueYear := findYear revenueText
    let valueText := trimStr (stripOmsYear parentText)
    let revenue := if valueText ≠ [] then extractNumericValue valueText else none
    (revenue, revenueYear)

/-- getProfit (lines 221-235): when revenue is truthy, a synthetic profit of
10 to 15 percent of revenue is fabricated from the random draw `r`;
no profit value is ever read from the document. -/
def getProfit (revenue : Option Int) (r : Frac) : Option Int :=
  match revenue with
  | some v =>
    if v ≠ 0 then
      some (jsFloor (fracMul (fracOfInt v)
        (fracAdd { num := 1, den := 10 } (fracMul r { num := 5, den := 100 }))))
    else none
  | none => none

/-- getLink (lines 240-243): href of the first anchor under the h2, or "". -/
def getLink (element : CompanyCard) : JSStr := (element.href).getD []

/-- getRegistrationDate (lines 248-268): when sorting by registration date, a
synthetic date between 2000 and 2023 is fabricated from random draws; no date
is ever read from the document. -/
def getRegistrationDate (params : SegmentationSearchParams)
    (r : EntryRand) : Option JSDate :=
  if params.sort = some (str "registrationDateDesc") ∨
     params.sort = some (str "registrationDateAsc") then
    some { year := 2000 + jsFloor (fracMul r.regYearDraw (fracOfInt 23)),
           month := jsFloor (fracMul r.regMonthDraw (fracOfInt 12)),
           day := 1 + jsFloor (fracMul r.regDayDraw (fracOfInt 28)) }
  else none

/-- parseCompanyElement (lines 273-298). -/
def parseCompanyElement (element : CompanyCard)
    (params : SegmentationSearchParams) (r : EntryRand) :
    SegmentationSearchResult :=
  let link := getLink element
  let companyName := getName element
  let location := getLocation element link params.location
  let orgNumber := (getOrgNumber element).getD []
  let employees := getEmployees element
  let rv := getRevenue element
  let profit := getProfit rv.1 r.profitDraw
  let registrationDate := getRegistrationDate params r
  { name := companyName,
    link := str "https://www.allabolag.se" ++ link,
    location := location,
    orgNumber := orgNumber,
    employees := employees,
    revenue := rv.1,
    revenueYear := rv.2,
    profit := profit,
    registrationDate := registrationDate }

/-- findCompanyElements (lines 303-319): the main h2 items that link to a
company detail page and are not population or promotional headings. -/
def findCompanyElements (doc : Doc) : List CompanyCard :=
  doc.cards.filter (fun c =>
    c.headingLinksToCompany &&
    !containsSub (str "företag") (trimStr c.heading) &&
    !containsSub (str "Köp") (trimStr c.heading))

/-- createSyntheticTestData (lines 324-433): for particular sort or range
parameters the tool fabricates ten sample companies instead of using the
fetched document.  Branch order as in the source: revenueDesc sort, then
registrationDateDesc sort, then a complete employee range, then a complete
revenue range, then the profit sorts. -/
def createSyntheticTestData (params : SegmentationSearchParams)
    (synthDraw : Nat → Frac) : List SegmentationSearchResult :=
  if params.sort = some (str "revenueDesc") then
    (List.range 10).map (fun i =>
      { name := str "Revenue Company " ++ natToStr (i + 1),
        link := str "https://www.allabolag.se/foretag/revenue-company-" ++ natToStr (i + 1),
        location := str "Test Location",
        orgNumber := str "55555" ++ natToStr i ++ 45 :: natToStr (1000 + i),
        revenue := some (10000000 - (i : Int) * 500000),
        revenueYear := some (str "2023") })
  else if params.sort = some (str "registrationDateDesc") then
    (List.range 10).map (fun i =>
      { name := str "Date Company " ++ natToStr (i + 1),
        link := str "https://www.allabolag.se/foretag/date-company-" ++ natToStr (i + 1),
        location := str "Test Location",
        orgNumber := str "55555" ++ natToStr i ++ 45 :: natToStr (1000 + i),
        registrationDate := some { year := 2023 - (i : Int), month := 0, day := 1 } })
  else
    match params.numEmployeesFrom, params.numEmployeesTo with
    | some mn, some mx =>
      (List.range 10).map (fun i =>
        { name := str "Test Company " ++ natToStr (i + 1),
          link := str "https://www.allabolag.se/foretag/test-company-" ++ natToStr (i + 1),
          location := str "Test Location",
          orgNumber := str "55555" ++ natToStr i ++ 45 :: natToStr (1000 + i),
          employees := some (mn + jsFloor (fracMul (synthDraw i) (fracOfInt (mx - mn + 1)))) })
    | _, _ =>
      match params.revenueFrom, params.revenueTo with
      | some mn, some mx =>
        (List.range 10).map (fun i =>
          { name := str "Test Company " ++ natToStr (i + 1),
            link := str "https://www.allabolag.se/foretag/test-company-" ++ natToStr (i + 1),
            location := str "Test Location",
            orgNumber := str "55555" ++ natToStr i ++ 45 :: natToStr (1000 + i),
            revenue := some (mn + jsFloor (fracMul (synthDraw i) (fracOfInt (mx - mn + 1)))),
            revenueYear := some (str "2023") })
      | _, _ =>
        if params.sort = some (str "profitDesc") ∨ params.sort = some (str "profitAsc") then
          let results := (List.range 10).map (fun i =>
            ({ name := str "Test Company " ++ natToStr (i + 1),
               link := str "https://www.allabolag.se/foretag/test-company-" ++ natToStr (i + 1),
               location := str "Test Location",
               orgNumber := str "55555" ++ natToStr i ++ 45 :: natToStr (1000 + i),
               profit := some (1000000 - (i : Int) * 100000) } :
               SegmentationSearchResult))
          if params.sort = some (str "profitAsc") then results.reverse else results
        else []

/-- The fixed enumeration of accepted sort values (lines 445-457). -/
def sortValues : List JSStr :=
  [str "relevance", str "companyNameAsc", str "companyNameDesc",
   str "registrationDateAsc", str "registrationDateDesc",
   str "revenueAsc", str "revenueDesc",
   str "numEmployeesAsc", str "numEmployeesDesc",
   str "profitAsc", str "profitDesc"]

/-- The validation guard of segmentationSearch (lines 443-458):
`params.sort && !allowed.includes(params.sort)` — a present, truthy (nonempty)
sort outside the enumeration. -/
def sortInvalid (params : SegmentationSearchParams) : Bool :=
  match params.sort with
  | none => false
  | some s => !(s = [] : Bool) && !(sortValues.contains s)

/-- The filter callback of segmentationSearch (lines 493-529): an entry is
dropped exactly when some supplied bound is violated by a present value. -/
def companyPassesFilter (params : SegmentationSearchParams)
    (company : SegmentationSearchResult) : Bool :=
  !(match params.numEmployeesFrom, company.employees with
    | some b, some v => decide (v < b)
    | _, _ => false) &&
  !(match params.numEmployeesTo, company.employees with
    | some b, some v => decide (v > b)
    | _, _ => false) &&
  !(match params.revenueFrom, company.revenue with
    | some b, some v => decide (v < b)
    | _, _ => false) &&
  !(match params.revenueTo, company.revenue with
    | some b, some v => decide (v > b)
    | _, _ => false)

/-- segmentationSearch (lines 438-541).  The fetch collaborator is passed as a
function from the built URL to the parsed document; the second component of
the result counts how many times it was invoked.  The `Except.error` value
carries the thrown error message. -/
def segmentationSearch (params : SegmentationSearchParams)
    (fetch : JSStr → Doc) (rng : Rng) :
    Except JSStr SegmentationSearchResponse × Nat :=
  if sortInvalid params then (Except.error (str "Invalid sort parameter"), 0)
  else
    let url := buildSearchUrl params
    let doc := fetch url
    let totalCount := extractTotalCount doc
    let syntheticTestData := createSyntheticTestData params rng.synth
    if syntheticTestData.length > 0 then
      (Except.ok { results := syntheticTestData,
                   totalCount := (syntheticTestData.length : Int) }, 1)
    else
      let companyElements := findCompanyElements doc
      let results := companyElements.enum.map
        (fun p => parseCompanyElement p.2 params (rng.entry p.1))
      let filteredResults := results.filter (companyPassesFilter params)
      (Except.ok { results := filteredResults, totalCount := totalCount }, 1)

/-- Spec-side definition: the registry org-number format `^\d{6}-\d{4}$`
named by the specification (six digits, a hyphen, four digits). -/
def orgNumberFormat (s : JSStr) : Bool :=
  match s with
  | [a, b, c, d, e, f, g, h, i, j, k] =>
    ([a, b, c, d, e, f].all isDigitCode) && g = 45 && ([h, i, j, k].all isDigitCode)
  | _ => false

/-- Spec-side definition: the integer formed by all digit code units of a
text, in order (the value the specification describes for grouped-digit
text). -/
def digitsValue (s : JSStr) : Int :=
  (s.filter isDigitCode).foldl (fun a c => a * 10 + ((c : Int) - 48)) 0

/-! ### Concrete fixtures used to evaluate the pipeline -/

/-- A document with no headings at all (a page yielding zero matches). -/
def emptyDoc : Doc := ⟨[]⟩

/-- An ordinary company fragment: heading, detail link, org number, and a
revenue block of 1 000 (thousand SEK) for 2023; the page exposes no profit
and no registration date (the fragment model has no such nodes, mirroring
the site layout the extractors scrape). -/
def acmeCard : CompanyCard :=
  { heading := str "Acme AB",
    headingLinksToCompany := true,
    href := some (str "/foretag/acme/123"),
    orgNodeText := some (str "Org.nr 556469-6291"),
    revenueNode := some (str "Omsättning 2023", str "Omsättning 2023 1 000") }

/-- A document whose only entry is `acmeCard`. -/
def acmeDoc : Doc := ⟨[acmeCard]⟩

/-- `acmeCard` with a revenue of 50 (inside the range of the C4 scenario). -/
def acmeCard50 : CompanyCard :=
  { acmeCard with revenueNode := some (str "Omsättning 2023", str "Omsättning 2023 50") }

/-- A document whose only entry has revenue 50. -/
def acmeDoc50 : Doc := ⟨[acmeCard50]⟩

/-- A document whose only heading is the population heading 13 170 foretag. -/
def countDoc : Doc := ⟨[{ heading := str "13 170 företag" }]⟩

/-- A document carrying the population heading together with a fabricated
entry count heading placed earlier on the page. -/
def twoHeadingsDoc : Doc :=
  ⟨[{ heading := str "1 företag" }, { heading := str "13 170 företag" }]⟩

/-- A document whose only heading is promotional: it contains the bare word
foretag and a price, but no population phrase. -/
def promoDoc : Doc := ⟨[{ heading := str "Köp denna lista över företag för 100 kr" }]⟩

/-- An entry fragment of an Umea-situated company. -/
def umeaCard : CompanyCard :=
  { heading := str "Norrlands Bygg AB",
    headingLinksToCompany := true,
    href := some (str "/foretag/norrlands-bygg/5566778899/umeå/") }

/-- A document listing only Umea-situated companies. -/
def umeaDoc : Doc := ⟨[umeaCard]⟩

/-- An entry fragment whose org-number node carries extra tokens after the
number itself. -/
def orgTokensCard : CompanyCard :=
  { heading := str "Acme AB",
    headingLinksToCompany := true,
    href := some (str "/foretag/1"),
    orgNodeText := some (str "Org.nr 556469-6291 Umeå") }

/-- A document whose only entry is `orgTokensCard`. -/
def orgTokensDoc : Doc := ⟨[orgTokensCard]⟩

/-- A document whose only heading announces a population of zero. -/
def zeroDoc : Doc := ⟨[{ heading := str "0 företag" }]⟩

/-- The parameters of the C4 scenario: a complete revenue range. -/
def c4params : SegmentationSearchParams :=
  { revenueFrom := some 0, revenueTo := some 100, location := some (str "Umeå") }

/-- Spec-side helper: the same parameters with the location normalisation of
the URL builder already applied (used to state idempotence). -/
def normalizeLocation (params : SegmentationSearchParams) : SegmentationSearchParams :=
  { params with location := params.location.map capitalizeWords }

/-- Two texts differ at some position that lies inside both (so neither can
be extended to a string of which the other is a prefix). -/
def strDiffEarly : JSStr → JSStr → Bool
  | a :: ps, b :: qs => (a ≠ b : Bool) || strDiffEarly ps qs
  | _, _ => false

/-- The result list of a call outcome, `[]` for an error outcome. -/
def resultsOf (out : Except JSStr SegmentationSearchResponse × Nat) :
    List SegmentationSearchResult :=
  match out.1 with
  | Except.ok r => r.results
  | Except.error _ => []

/-- The total count of a call outcome, `-1` for an error outcome. -/
def totalCountOf (out : Except JSStr SegmentationSearchResponse × Nat) : Int :=
  match out.1 with
  | Except.ok r => r.totalCount
  | Except.error _ => -1

/-- The thrown error message of a call outcome, `none` for a success. -/
def errorOf (out : Except JSStr SegmentationSearchResponse × Nat) : Option JSStr :=
  match out.1 with
  | Except.ok _ => none
  | Except.error m => some m

/-! ### Supporting lemmas about the string model -/

theorem splitOnCode_ne_nil (sep : Nat) (s : JSStr) : splitOnCode sep s ≠ [] := by
  cases s with
  | nil => simp [splitOnCode]
  | cons c rest =>
    simp only [splitOnCode]
    split <;> simp

theorem headD_cons_tail {α : Type} (l : List (List α)) (h : l ≠ []) :
    l.headD [] :: l.tail = l := by
  cases l with
  | nil => exact absurd rfl h
  | cons a t => rfl

theorem mem_splitOnCode_no_sep (sep : Nat) (s : JSStr) :
    ∀ w ∈ splitOnCode sep s, ∀ c ∈ w, c ≠ sep := by
  induction s with
  | nil =>
    intro w hw c hc
    simp [splitOnCode] at hw
    subst hw
    simp at hc
  | cons a rest ih =>
    intro w hw c hc
    simp only [splitOnCode] at hw
    by_cases ha : a = sep
    · rw [if_pos ha] at hw
      rcases List.mem_cons.1 hw with h | h
      · subst h; simp at hc
      · exact ih w h c hc
    · rw [if_neg ha] at hw
      rcases List.mem_cons.1 hw with h | h
      · subst h
        rcases List.mem_cons.1 hc with h2 | h2
        · subst h2; exact ha
        · have hd : (splitOnCode sep rest).headD [] ∈ splitOnCode sep rest := by
            cases hsr : splitOnCode sep rest with
            | nil => exact absurd hsr (splitOnCode_ne_nil sep rest)
            | cons x t => simp
          exact ih _ hd c h2
      · have : w ∈ splitOnCode sep rest := List.mem_of_mem_tail h
        exact ih w this c hc

theorem splitOnCode_append_no_sep (sep : Nat) (w s : JSStr)
    (hw : ∀ c ∈ w, c ≠ sep) :
    splitOnCode sep (w ++ s) =
      (w ++ (splitOnCode sep s).headD []) :: (splitOnCode sep s).tail := by
  induction w with
  | nil =>
    simp only [List.nil_append]
    exact (headD_cons_tail _ (splitOnCode_ne_nil sep s)).symm
  | cons a t ih =>
    have ha : a ≠ sep := hw a (List.mem_cons_self a t)
    have ht : ∀ c ∈ t, c ≠ sep := fun c hc => hw c (List.mem_cons_of_mem a hc)
    have heq : splitOnCode sep (a :: (t ++ s)) =
        (a :: (splitOnCode sep (t ++ s)).headD []) :: (splitOnCode sep (t ++ s)).tail := by
      simp [splitOnCode, if_neg ha]
    rw [List.cons_append, heq, ih ht]
    simp

theorem joinCode_splitOnCode (sep : Nat) (s : JSStr) :
    joinCode sep (splitOnCode sep s) = s := by
  induction s with
  | nil => simp [splitOnCode, joinCode]
  | cons a rest ih =>
    simp only [splitOnCode]
    cases hsr : splitOnCode sep rest with
    | nil => exact absurd hsr (splitOnCode_ne_nil sep rest)
    | cons h t =>
      by_cases ha : a = sep
      · subst ha
        rw [if_pos rfl]
        rw [hsr] at ih
        simpa [joinCode] using ih
      · rw [if_neg ha]
        rw [hsr] at ih
        cases t with
        | nil => simpa [joinCode] using ih
        | cons x t2 => simpa [joinCode] using ih

theorem splitOnCode_joinCode (sep : Nat) (ws : List JSStr) (hne : ws ≠ [])
    (hw : ∀ w ∈ ws, ∀ c ∈ w, c ≠ sep) :
    splitOnCode sep (joinCode sep ws) = ws := by
  induction ws with
  | nil => exact absurd rfl hne
  | cons w t ih =>
    cases t with
    | nil =>
      simp only [joinCode]
      have hw0 : ∀ c ∈ w, c ≠ sep := hw w (List.mem_cons_self w [])
      have := splitOnCode_append_no_sep sep w [] hw0
      simpa [splitOnCode] using this
    | cons x t2 =>
      have hw0 : ∀ c ∈ w, c ≠ sep := hw w (List.mem_cons_self w _)
      have hrest : ∀ v ∈ x :: t2, ∀ c ∈ v, c ≠ sep :=
        fun v hv => hw v (List.mem_cons_of_mem w hv)
      have ihr := ih (by simp) hrest
      simp only [joinCode]
      rw [splitOnCode_append_no_sep sep w _ hw0]
      have hsep : splitOnCode sep (sep :: joinCode sep (x :: t2)) =
          [] :: splitOnCode sep (joinCode sep (x :: t2)) := by
        simp [splitOnCode]
      rw [hsep, ihr]
      simp

theorem jsToUpperChar_idem (n : Nat) : jsToUpperChar (jsToUpperChar n) = jsToUpperChar n := by
  simp only [jsToUpperChar]
  split_ifs <;> omega

theorem jsToLower_idem (n : Nat) : jsToLower (jsToLower n) = jsToLower n := by
  simp only [jsToLower]
  split_ifs <;> omega

theorem jsToUpperChar_ne_sharp_s {n : Nat} (h : n ≠ 223) : jsToUpperChar n ≠ 223 := by
  simp only [jsToUpperChar]
  split_ifs <;> omega

theorem jsToUpperChar_ne_sep {n : Nat} (h : n ≠ 32) : jsToUpperChar n ≠ 32 := by
  simp only [jsToUpperChar]
  split_ifs <;> omega

theorem jsToLower_ne_sep {n : Nat} (h : n ≠ 32) : jsToLower n ≠ 32 := by
  simp only [jsToLower]
  split_ifs <;> omega

theorem jsToUpperMap_ne_sep {n : Nat} (h : n ≠ 32) : ∀ c ∈ jsToUpperMap n, c ≠ 32 := by
  intro c hc
  simp only [jsToUpperMap] at hc
  split_ifs at hc with h1
  · simp only [List.mem_cons, List.not_mem_nil, or_false] at hc
    rcases hc with rfl | rfl <;> omega
  · simp only [List.mem_singleton] at hc
    subst hc
    exact jsToUpperChar_ne_sep h

theorem jsToUpperMap_ne_nil (n : Nat) : jsToUpperMap n ≠ [] := by
  simp only [jsToUpperMap]
  split_ifs <;> simp

theorem capitalizeWord_idem {w : JSStr} (hw : ∀ c ∈ w, c ≤ 255 ∧ c ≠ 223) :
    capitalizeWord (capitalizeWord w) = capitalizeWord w := by
  cases w with
  | nil => rfl
  | cons c rest =>
    have hc : c ≠ 223 := (hw c (List.mem_cons_self c rest)).2
    have h1 : capitalizeWord (c :: rest) = jsToUpperChar c :: rest.map jsToLower := by
      simp only [capitalizeWord, jsToUpperMap, if_neg hc, List.singleton_append]
    rw [h1]
    have h2 : capitalizeWord (jsToUpperChar c :: rest.map jsToLower) =
        jsToUpperChar (jsToUpperChar c) :: (rest.map jsToLower).map jsToLower := by
      simp only [capitalizeWord, jsToUpperMap,
        if_neg (jsToUpperChar_ne_sharp_s hc), List.singleton_append]
    rw [h2, jsToUpperChar_idem, List.map_map]
    congr 1
    exact List.map_congr_left (fun x _ => jsToLower_idem x)

theorem capitalizeWord_no_sep (w : JSStr) (hw : ∀ c ∈ w, c ≠ 32) :
    ∀ c ∈ capitalizeWord w, c ≠ 32 := by
  cases w with
  | nil => simp [capitalizeWord]
  | cons a rest =>
    intro c hc
    simp only [capitalizeWord, List.mem_append, List.mem_map] at hc
    rcases hc with h | ⟨x, hx, h⟩
    · exact jsToUpperMap_ne_sep (hw a (List.mem_cons_self a rest)) c h
    · subst h
      exact jsToLower_ne_sep (hw x (List.mem_cons_of_mem a hx))

theorem mem_splitOnCode_subset (sep : Nat) (s : JSStr) :
    ∀ w ∈ splitOnCode sep s, ∀ c ∈ w, c ∈ s := by
  induction s with
  | nil =>
    intro w hw c hc
    simp [splitOnCode] at hw
    subst hw
    simp at hc
  | cons a rest ih =>
    intro w hw c hc
    simp only [splitOnCode] at hw
    by_cases ha : a = sep
    · rw [if_pos ha] at hw
      rcases List.mem_cons.1 hw with h | h
      · subst h; simp at hc
      · exact List.mem_cons_of_mem a (ih w h c hc)
    · rw [if_neg ha] at hw
      rcases List.mem_cons.1 hw with h | h
      · subst h
        rcases List.mem_cons.1 hc with h2 | h2
        · subst h2; exact List.mem_cons_self c rest
        · have hd : (splitOnCode sep rest).headD [] ∈ splitOnCode sep rest := by
            cases hsr : splitOnCode sep rest with
            | nil => exact absurd hsr (splitOnCode_ne_nil sep rest)
            | cons x t => simp
          exact List.mem_cons_of_mem a (ih _ hd c h2)
      · exact List.mem_cons_of_mem a (ih w (List.mem_of_mem_tail h) c hc)

theorem capitalizeWords_ne_nil {s : JSStr} (h : s ≠ []) : capitalizeWords s ≠ [] := by
  cases hsp : splitOnCode 32 s with
  | nil => exact absurd hsp (splitOnCode_ne_nil 32 s)
  | cons w ws =>
    cases ws with
    | nil =>
      have hw : w = s := by
        have hjs := joinCode_splitOnCode 32 s
        rw [hsp] at hjs
        simpa [joinCode] using hjs
      unfold capitalizeWords
      rw [hsp]
      simp only [List.map_cons, List.map_nil, joinCode]
      cases w with
      | nil => exact absurd hw.symm h
      | cons c rest =>
        simp only [capitalizeWord]
        intro h0
        exact jsToUpperMap_ne_nil c (List.append_eq_nil.1 h0).1
    | cons w2 ws2 =>
      unfold capitalizeWords
      rw [hsp]
      simp only [List.map_cons, joinCode]
      intro h0
      exact List.noConfusion (List.append_eq_nil.1 h0).2

theorem capitalizeWords_idem {s : JSStr} (hs : ∀ c ∈ s, c ≤ 255 ∧ c ≠ 223) :
    capitalizeWords (capitalizeWords s) = capitalizeWords s := by
  unfold capitalizeWords
  have hne : (splitOnCode 32 s).map capitalizeWord ≠ [] := by
    intro h
    exact splitOnCode_ne_nil 32 s (List.map_eq_nil_iff.1 h)
  have hns : ∀ w ∈ (splitOnCode 32 s).map capitalizeWord, ∀ c ∈ w, c ≠ 32 := by
    intro w hw
    rcases List.mem_map.1 hw with ⟨v, hv, rfl⟩
    exact capitalizeWord_no_sep v (mem_splitOnCode_no_sep 32 s v hv)
  rw [splitOnCode_joinCode 32 _ hne hns, List.map_map]
  congr 1
  exact List.map_congr_left (fun w hw =>
    capitalizeWord_idem (fun c hc => hs c (mem_splitOnCode_subset 32 s w hw c hc)))

theorem isWsCode_of_digit {n : Nat} (h : isDigitCode n = true) :
    isWsCode n = false := by
  simp only [isDigitCode, Bool.and_eq_true, decide_eq_true_eq] at h
  simp only [isWsCode]
  simp only [Bool.or_eq_false_iff, decide_eq_false_iff_not]
  omega

theorem dropWhile_eq_self_of_none {p : Nat → Bool} {s : JSStr}
    (h : ∀ c ∈ s, p c = false) : s.dropWhile p = s := by
  cases s with
  | nil => rfl
  | cons a t =>
    rw [List.dropWhile_cons, h a (List.mem_cons_self a t)]
    simp

theorem takeWhile_eq_self_of_all {p : Nat → Bool} {s : JSStr}
    (h : ∀ c ∈ s, p c = true) : s.takeWhile p = s := by
  induction s with
  | nil => rfl
  | cons a t ih =>
    rw [List.takeWhile_cons, h a (List.mem_cons_self a t)]
    simp only [if_true]
    rw [ih (fun c hc => h c (List.mem_cons_of_mem a hc))]

theorem trimStr_of_no_ws {s : JSStr} (h : ∀ c ∈ s, isWsCode c = false) :
    trimStr s = s := by
  unfold trimStr
  rw [dropWhile_eq_self_of_none h]
  rw [dropWhile_eq_self_of_none (fun c hc => h c (List.mem_reverse.1 hc))]
  simp

/-! ### Claim theorems -/

/-- C1: the claim states that segmentationSearch returns only entries derived
from the fetched document, never fabricated sample entries and never invented
registration dates.  The code violates this: with `sort = revenueDesc` and a
fetched document containing nothing at all, the call succeeds with ten
fabricated "Revenue Company" entries (createSyntheticTestData), and with
`sort = registrationDateAsc` the single real entry of the document — whose
fragment exposes no registration data — comes back with an invented
registration date (getRegistrationDate). -/
theorem c1_fabricated_entries_code_bug :
    (resultsOf (segmentationSearch { sort := some (str "revenueDesc") }
        (fun _ => emptyDoc) rng0)).map (fun e => e.name) =
      [str "Revenue Company 1", str "Revenue Company 2", str "Revenue Company 3",
       str "Revenue Company 4", str "Revenue Company 5", str "Revenue Company 6",
       str "Revenue Company 7", str "Revenue Company 8", str "Revenue Company 9",
       str "Revenue Company 10"] ∧
    emptyDoc.cards = [] ∧
    (resultsOf (segmentationSearch { sort := some (str "registrationDateAsc") }
        (fun _ => acmeDoc) rng0)).map (fun e => e.registrationDate) =
      [some { year := 2000, month := 0, day := 1 }] := by
  decide

/-- C2: the claim states that when the page does not expose a profit value the
entry's profit field is absent, and in particular profit is never computed as
a fraction of revenue.  The code violates this: getProfit never reads the
document at all and fabricates profit from revenue whenever revenue is
present and nonzero — on a fragment whose revenue block reads 1 000 the entry
comes back with profit 100 (exactly revenue/10 under a zero random draw), and
its profit field is present under every randomness oracle. -/
theorem c2_profit_fabricated_code_bug :
    ((resultsOf (segmentationSearch {} (fun _ => acmeDoc) rng0)).map
        (fun e => (e.revenue, e.profit)) = [(some 1000, some 100)]) ∧
    (∀ rng : Rng, (resultsOf (segmentationSearch {} (fun _ => acmeDoc) rng)).map
        (fun e => e.profit.isSome) = [true]) :=
  ⟨by decide, fun _ => rfl⟩

/-- C4: the claim states that an entry is excluded from the results exactly
when a supplied bound is violated by a present value; in particular an entry
with present, in-range revenue is returned.  The code violates this whenever
both ends of a range are supplied: with `revenueFrom = 0, revenueTo = 100`
the single real entry — whose parsed revenue is 50, inside the range — is
discarded wholesale and ten fabricated "Test Company" entries are returned in
its place (the synthetic-data path bypasses the range filter). -/
theorem c4_range_filter_bypassed_code_bug :
    ((parseCompanyElement acmeCard50 c4params (rng0.entry 0)).revenue = some 50) ∧
    (companyPassesFilter c4params
        (parseCompanyElement acmeCard50 c4params (rng0.entry 0)) = true) ∧
    ((resultsOf (segmentationSearch c4params (fun _ => acmeDoc50) rng0)).map
        (fun e => e.name) =
      [str "Test Company 1", str "Test Company 2", str "Test Company 3",
       str "Test Company 4", str "Test Company 5", str "Test Company 6",
       str "Test Company 7", str "Test Company 8", str "Test Company 9",
       str "Test Company 10"]) := by
  decide

/-- C5: the claim states that totalCount always equals the value extracted
from the population heading of the fetched document and is never recomputed
from the number of result entries.  The code violates this on the
synthetic-data path: with `sort = revenueDesc` and a document whose heading
reads 13 170 foretag, the response carries totalCount 10 (the length of the
fabricated result list) instead of 13170.  The zero-population part of the
claim does hold on the normal path: a document with a 0 foretag heading and
no entries yields totalCount 0 and an empty result list, not an error. -/
theorem c5_totalcount_recomputed_code_bug :
    (extractTotalCount countDoc = 13170) ∧
    (totalCountOf (segmentationSearch { sort := some (str "revenueDesc") }
        (fun _ => countDoc) rng0) = 10) ∧
    (totalCountOf (segmentationSearch {} (fun _ => zeroDoc) rng0) = 0) ∧
    (resultsOf (segmentationSearch {} (fun _ => zeroDoc) rng0) = []) := by
  decide

/-- C3 (counterexample): the claim asserts the validation error message
identifies the offending sort value.  At `sort = "invalidSortValue"` the call
does fail before fetching, but the thrown message is the fixed text
"Invalid sort parameter", which does not contain the offending value. -/
theorem c3_error_message_counterexample :
    (errorOf (segmentationSearch { sort := some (str "invalidSortValue") }
        (fun _ => emptyDoc) rng0) = some (str "Invalid sort parameter")) ∧
    ((segmentationSearch { sort := some (str "invalidSortValue") }
        (fun _ => emptyDoc) rng0).2 = 0) ∧
    (containsSub (str "invalidSortValue") (str "Invalid sort parameter") = false) := by
  decide

/-- C6 (counterexample): the claim quantifies over every document containing
a 13 170 foretag heading and over every document with no digit-prefixed
foretag heading.  Both parts fail: the extractor reads only the first heading
containing the word foretag, so a document whose earlier heading reads
1 foretag yields 1, not 13170; and a promotional heading containing the word
foretag and an unrelated number 100 yields 100, not 0. -/
theorem c6_total_count_counterexample :
    (extractTotalCount twoHeadingsDoc = 1 ∧ (1 : Int) ≠ 13170) ∧
    (extractTotalCount promoDoc = 100 ∧ (100 : Int) ≠ 0) := by
  decide

/-- C7 (counterexample): the claim asserts every returned entry's location
equals or contains the text Umea (capital U).  With the caller-supplied
location "umeå", getLocation returns the supplied value verbatim, so the
returned location is the all-lowercase "umeå", which neither equals nor
contains the capitalized "Umeå". -/
theorem c7_location_case_counterexample :
    ((resultsOf (segmentationSearch { location := some (str "umeå") }
        (fun _ => umeaDoc) rng0)).map (fun e => e.location) = [str "umeå"]) ∧
    (containsSub (str "Umeå") (str "umeå") = false) ∧
    (str "umeå" ≠ str "Umeå") := by
  decide

/-- C7 (amended): for `location = "umeå"` the built URL contains the
capitalized, URL-encoded query component `location=Ume%C3%A5`, and every
entry returned from a page listing only Umea-situated companies carries the
caller-supplied location verbatim — the all-lowercase "umeå", which matches
"Umeå" only up to letter case. -/
theorem c7_location_amended :
    (containsSub (str "location=Ume%C3%A5")
        (buildSearchUrl { location := some (str "umeå") }) = true) ∧
    ((resultsOf (segmentationSearch { location := some (str "umeå") }
        (fun _ => umeaDoc) rng0)).map (fun e => e.location) = [str "umeå"]) ∧
    ((str "umeå").map jsToLower = (str "Umeå").map jsToLower) := by
  decide

/-- C8 (counterexample): the claim asserts a present, non-sentinel orgNumber
always matches the six-digits-hyphen-four-digits format even when the
org-number node carries extra tokens.  getOrgNumber only strips the label and
trims: on a node reading Org.nr 556469-6291 Umea, the returned orgNumber is
"556469-6291 Umeå" — present, not the sentinel, and not matching the
format. -/
theorem c8_org_number_counterexample :
    ((resultsOf (segmentationSearch {} (fun _ => orgTokensDoc) rng0)).map
        (fun e => e.orgNumber) = [str "556469-6291 Umeå"]) ∧
    (orgNumberFormat (str "556469-6291 Umeå") = false) ∧
    (str "556469-6291 Umeå" ≠ str "N/A") ∧
    (str "556469-6291 Umeå" ≠ ([] : JSStr)) := by
  decide

/-- A call with an invalid sort never reaches the synthetic or parsing code:
segmentationSearch on a validation-passing parameter set always succeeds and
performs exactly one fetch. -/
theorem segmentationSearch_of_valid (params : SegmentationSearchParams)
    (fetch : JSStr → Doc) (rng : Rng) (h : sortInvalid params = false) :
    (segmentationSearch params fetch rng).2 = 1 ∧
    errorOf (segmentationSearch params fetch rng) = none := by
  unfold segmentationSearch
  rw [h]
  simp only [Bool.false_eq_true, if_false]
  refine ⟨?_, ?_⟩ <;>
    by_cases hsy : (createSyntheticTestData params rng.synth).length > 0 <;>
    simp [errorOf, hsy]

/-- A call with an invalid sort throws before fetching. -/
theorem segmentationSearch_of_invalid (params : SegmentationSearchParams)
    (fetch : JSStr → Doc) (rng : Rng) (h : sortInvalid params = true) :
    errorOf (segmentationSearch params fetch rng) =
      some (str "Invalid sort parameter") ∧
    (segmentationSearch params fetch rng).2 = 0 := by
  unfold segmentationSearch errorOf
  rw [h]
  simp

/-- C3 (amended): a present (truthy, hence nonempty) sort value outside the
fixed enumeration makes segmentationSearch fail before any fetch — zero fetch
invocations — but with the fixed message "Invalid sort parameter", which does
not carry the offending value; every member of the enumeration passes
validation, after which the call fetches once and succeeds. -/
theorem c3_sort_validation_amended :
    ∀ (params : SegmentationSearchParams) (fetch : JSStr → Doc) (rng : Rng)
      (s : JSStr), params.sort = some s → s ≠ [] →
      ((sortValues.contains s = true →
          (segmentationSearch params fetch rng).2 = 1 ∧
          errorOf (segmentationSearch params fetch rng) = none) ∧
       (sortValues.contains s = false →
          errorOf (segmentationSearch params fetch rng) =
            some (str "Invalid sort parameter") ∧
          (segmentationSearch params fetch rng).2 = 0)) := by
  intro params fetch rng s hs hne
  constructor
  · intro hc
    refine segmentationSearch_of_valid params fetch rng ?_
    simp only [sortInvalid, hs, hc, Bool.not_true, Bool.and_false]
  · intro hc
    refine segmentationSearch_of_invalid params fetch rng ?_
    simp only [sortInvalid, hs, hc, Bool.not_false, Bool.and_true]
    simp [hne]

/-- C3 (witness): the amended theorem evaluated at the concrete invalid sort
"badSort" and at the concrete valid sort "relevance". -/
theorem c3_sort_validation_witness :
    (errorOf (segmentationSearch { sort := some (str "badSort") }
        (fun _ => emptyDoc) rng0) = some (str "Invalid sort parameter") ∧
     (segmentationSearch { sort := some (str "badSort") }
        (fun _ => emptyDoc) rng0).2 = 0) ∧
    ((segmentationSearch { sort := some (str "relevance") }
        (fun _ => emptyDoc) rng0).2 = 1 ∧
     errorOf (segmentationSearch { sort := some (str "relevance") }
        (fun _ => emptyDoc) rng0) = none) :=
  ⟨(c3_sort_validation_amended _ _ _ (str "badSort") rfl (by decide)).2 (by decide),
   (c3_sort_validation_amended _ _ _ (str "relevance") rfl (by decide)).1 (by decide)⟩

/-- C6 (amended): the total-count extractor reads the first main heading
whose text contains the word foretag.  Whenever that first matching heading
is exactly 13 170 foretag, the extractor returns 13170 (interior spaces
stripped before parsing); whenever no heading at all contains the word
foretag, it returns 0 rather than failing. -/
theorem c6_total_count_amended :
    ∀ doc : Doc,
      (((doc.cards.map (fun c => c.heading)).filter
          (fun t => containsSub (str "företag") t)).headD [] =
            str "13 170 företag" →
        extractTotalCount doc = 13170) ∧
      ((doc.cards.map (fun c => c.heading)).filter
          (fun t => containsSub (str "företag") t) = [] →
        extractTotalCount doc = 0) := by
  intro doc
  constructor
  · intro h
    unfold extractTotalCount
    rw [h]
    decide
  · intro h
    unfold extractTotalCount
    rw [h]
    decide

/-- C6 (witness): the amended theorem evaluated at a document whose only
heading is "13 170 foretag" and at a document with no headings. -/
theorem c6_total_count_witness :
    extractTotalCount countDoc = 13170 ∧ extractTotalCount emptyDoc = 0 :=
  ⟨(c6_total_count_amended countDoc).1 (by decide),
   (c6_total_count_amended emptyDoc).2 (by decide)⟩

/-- A text matching the registry org-number format contains no whitespace. -/
theorem orgNumberFormat_no_ws {d : JSStr} (h : orgNumberFormat d = true) :
    ∀ c ∈ d, isWsCode c = false := by
  unfold orgNumberFormat at h
  split at h
  next n1 n2 n3 n4 n5 n6 n7 n8 n9 n10 n11 =>
    simp only [Bool.and_eq_true, List.all_eq_true, decide_eq_true_eq] at h
    obtain ⟨⟨h6, h45⟩, h4⟩ := h
    intro c hc
    simp only [List.mem_cons, List.not_mem_nil, or_false] at hc
    rcases hc with rfl | rfl | rfl | rfl | rfl | rfl | rfl | rfl | rfl | rfl | rfl
    · exact isWsCode_of_digit (h6 c (by simp))
    · exact isWsCode_of_digit (h6 c (by simp))
    · exact isWsCode_of_digit (h6 c (by simp))
    · exact isWsCode_of_digit (h6 c (by simp))
    · exact isWsCode_of_digit (h6 c (by simp))
    · exact isWsCode_of_digit (h6 c (by simp))
    · rw [h45]; decide
    · exact isWsCode_of_digit (h4 c (by simp))
    · exact isWsCode_of_digit (h4 c (by simp))
    · exact isWsCode_of_digit (h4 c (by simp))
    · exact isWsCode_of_digit (h4 c (by simp))
  next => exact absurd h (by simp)

/-- Trimming a single leading space from a whitespace-free text yields that
text. -/
theorem trim_space_cons {d : JSStr} (h : ∀ c ∈ d, isWsCode c = false) :
    trimStr (32 :: d) = d := by
  unfold trimStr
  have h32 : List.dropWhile isWsCode (32 :: d) = List.dropWhile isWsCode d := by
    rw [List.dropWhile_cons]
    simp [isWsCode]
  rw [h32, dropWhile_eq_self_of_none h,
    dropWhile_eq_self_of_none (fun c hc => h c (List.mem_reverse.1 hc)),
    List.reverse_reverse]

/-- C8 (amended): getOrgNumber only strips the Org.nr label and trims — it
does not constrain the remainder to the org-number pattern.  When the
org-number node text is the label, a space, and a bare org number in the
six-digits-hyphen-four-digits format, the returned orgNumber is exactly that
number and hence matches the format; extra surrounding tokens (see the
counterexample) are preserved verbatim instead of being stripped. -/
theorem c8_org_number_amended :
    ∀ (card : CompanyCard) (params : SegmentationSearchParams) (r : EntryRand)
      (d : JSStr), orgNumberFormat d = true →
      card.orgNodeText = some (str "Org.nr " ++ d) →
      (parseCompanyElement card params r).orgNumber = d := by
  intro card params r d hfmt hnode
  show (getOrgNumber card).getD [] = d
  unfold getOrgNumber
  rw [hnode]
  have hrepl : replaceFirst (str "Org.nr") [] (str "Org.nr " ++ d) = 32 :: d := rfl
  simp only [hrepl, trim_space_cons (orgNumberFormat_no_ws hfmt), Option.getD_some]

/-- C8 (witness): the amended theorem evaluated at the bare org number
556469-6291. -/
theorem c8_org_number_witness :
    (parseCompanyElement { orgNodeText := some (str "Org.nr 556469-6291") } {} {}).orgNumber =
      str "556469-6291" :=
  c8_org_number_amended _ {} {} (str "556469-6291") (by decide) rfl

/-- C10: the numeric-value extractor strips every non-digit code unit and
parses the concatenated digits, so any text containing at least one digit
yields the integer formed by all its digit code units in order — grouped text
"13 170" yields 13170 and range-bucket text "1-4" yields 14 — and only a text
with no digit at all yields absence. -/
theorem c10_numeric_extractor :
    (∀ s : JSStr, extractNumericValue s =
        if s.filter isDigitCode = [] then none else some (digitsValue s)) ∧
    (extractNumericValue (str "13 170") = some 13170) ∧
    (extractNumericValue (str "1-4") = some 14) ∧
    (extractNumericValue (str "abc") = none) := by
  refine ⟨?_, by decide, by decide, by decide⟩
  intro s
  unfold extractNumericValue digitsValue
  by_cases hc : s.filter isDigitCode = []
  · simp [hc]
  · rw [if_neg hc, if_neg hc]
    have hall : ∀ c ∈ s.filter isDigitCode, isDigitCode c = true :=
      fun c hc2 => List.of_mem_filter hc2
    obtain ⟨c, rest, hl⟩ : ∃ c rest, s.filter isDigitCode = c :: rest := by
      cases hx : s.filter isDigitCode with
      | nil => exact absurd hx hc
      | cons a t => exact ⟨a, t, rfl⟩
    rw [hl] at hall ⊢
    have hcd : isDigitCode c = true := hall c (by simp)
    have hcd48 : 48 ≤ c ∧ c ≤ 57 := by
      simpa [isDigitCode, Bool.and_eq_true, decide_eq_true_eq] using hcd
    unfold parseIntJS
    rw [List.dropWhile_cons, isWsCode_of_digit hcd]
    simp only [Bool.false_eq_true, if_false]
    have hc43 : ¬ (c = 43) := by omega
    have hc45 : ¬ (c = 45) := by omega
    rw [if_neg hc43, if_neg hc45]
    simp only []
    rw [takeWhile_eq_self_of_all hall]
    simp

/-- A text that differs from `q` at a position inside both is a prefix of no
extension of `q`. -/
theorem isPrefixStr_false_of_diffEarly :
    ∀ {p q : JSStr}, strDiffEarly p q = true →
      ∀ v : JSStr, isPrefixStr p (q ++ v) = false := by
  intro p
  induction p with
  | nil => intro q h v; cases q <;> simp [strDiffEarly] at h
  | cons a ps ih =>
    intro q h v
    cases q with
    | nil => simp [strDiffEarly] at h
    | cons b qs =>
      simp only [strDiffEarly, Bool.or_eq_true, decide_eq_true_eq] at h
      rcases h with h | h
      · simp only [List.cons_append, isPrefixStr, Bool.and_eq_false_iff]
        left
        simpa using h
      · show isPrefixStr (a :: ps) ((b :: qs) ++ v) = false
        rw [List.cons_append]
        show ((a = b : Bool) && isPrefixStr ps (qs ++ v)) = false
        rw [ih h v, Bool.and_false]

/-- Characterisation of the components of the query string: every component
stems from a present parameter and starts with that parameter's key. -/
theorem mem_queryParamsList {params : SegmentationSearchParams} {q : JSStr}
    (hq : q ∈ queryParamsList params) :
    (∃ v, params.location = some v ∧
       q = str "location=" ++ encodeURIComponent (capitalizeWords v)) ∨
    (∃ v, params.proffIndustryCode = some v ∧
       q = str "proffIndustryCode=" ++ encodeURIComponent v) ∨
    (∃ v, params.companyType = some v ∧
       q = str "companyType=" ++ encodeURIComponent v) ∨
    (∃ v, params.revenueFrom = some v ∧ q = str "revenueFrom=" ++ intToStr v) ∨
    (∃ v, params.revenueTo = some v ∧ q = str "revenueTo=" ++ intToStr v) ∨
    (∃ v, params.numEmployeesFrom = some v ∧
       q = str "numEmployeesFrom=" ++ intToStr v) ∨
    (∃ v, params.numEmployeesTo = some v ∧
       q = str "numEmployeesTo=" ++ intToStr v) ∨
    (∃ v, params.sort = some v ∧ q = str "sort=" ++ v) ∨
    (∃ v, params.page = some v ∧ q = str "page=" ++ intToStr v) := by
  rw [queryParamsList] at hq
  simp only [List.mem_append] at hq
  rcases hq with ((((((((h | h) | h) | h) | h) | h) | h) | h) | h)
  · cases hx : params.location with
    | none => rw [hx] at h; simp at h
    | some l =>
      rw [hx] at h
      by_cases hl : l = []
      · simp [hl] at h
      · simp only [if_neg hl, List.mem_singleton] at h
        exact Or.inl ⟨l, rfl, h⟩
  · cases hx : params.proffIndustryCode with
    | none => rw [hx] at h; simp at h
    | some v =>
      rw [hx] at h
      by_cases hl : v = []
      · simp [hl] at h
      · simp only [if_neg hl, List.mem_singleton] at h
        exact Or.inr (Or.inl ⟨v, rfl, h⟩)
  · cases hx : params.companyType with
    | none => rw [hx] at h; simp at h
    | some v =>
      rw [hx] at h
      by_cases hl : v = []
      · simp [hl] at h
      · simp only [if_neg hl, List.mem_singleton] at h
        exact Or.inr (Or.inr (Or.inl ⟨v, rfl, h⟩))
  · cases hx : params.revenueFrom with
    | none => rw [hx] at h; simp at h
    | some v =>
      rw [hx] at h
      simp only [List.mem_singleton] at h
      exact Or.inr (Or.inr (Or.inr (Or.inl ⟨v, rfl, h⟩)))
  · cases hx : params.revenueTo with
    | none => rw [hx] at h; simp at h
    | some v =>
      rw [hx] at h
      simp only [List.mem_singleton] at h
      exact Or.inr (Or.inr (Or.inr (Or.inr (Or.inl ⟨v, rfl, h⟩))))
  · cases hx : params.numEmployeesFrom with
    | none => rw [hx] at h; simp at h
    | some v =>
      rw [hx] at h
      simp only [List.mem_singleton] at h
      exact Or.inr (Or.inr (Or.inr (Or.inr (Or.inr (Or.inl ⟨v, rfl, h⟩)))))
  · cases hx : params.numEmployeesTo with
    | none => rw [hx] at h; simp at h
    | some v =>
      rw [hx] at h
      simp only [List.mem_singleton] at h
      exact Or.inr (Or.inr (Or.inr (Or.inr (Or.inr (Or.inr (Or.inl ⟨v, rfl, h⟩))))))
  · cases hx : params.sort with
    | none => rw [hx] at h; simp at h
    | some v =>
      rw [hx] at h
      by_cases hl : v = []
      · simp [hl] at h
      · simp only [if_neg hl, List.mem_singleton] at h
        exact Or.inr (Or.inr (Or.inr (Or.inr (Or.inr (Or.inr (Or.inr (Or.inl ⟨v, rfl, h⟩)))))))
  · cases hx : params.page with
    | none => rw [hx] at h; simp at h
    | some v =>
      rw [hx] at h
      by_cases hl : v = 0
      · simp [hl] at h
      · simp only [if_neg hl, List.mem_singleton] at h
        exact Or.inr (Or.inr (Or.inr (Or.inr (Or.inr (Or.inr (Or.inr (Or.inr ⟨v, rfl, h⟩)))))))

/-- The query components of location-normalised parameters coincide with the
original ones, provided the location stays inside the repertoire on which
the normalisation is idempotent (Latin-1 without the sharp s). -/
theorem queryParamsList_normalizeLocation (params : SegmentationSearchParams)
    (hloc : ∀ l, params.location = some l → ∀ c ∈ l, c ≤ 255 ∧ c ≠ 223) :
    queryParamsList (normalizeLocation params) = queryParamsList params := by
  cases hx : params.location with
  | none =>
    simp [queryParamsList, normalizeLocation, hx]
  | some l =>
    by_cases hl : l = []
    · subst hl
      simp [queryParamsList, normalizeLocation, hx]
      decide
    · have hlen : capitalizeWords l ≠ [] := capitalizeWords_ne_nil hl
      simp [queryParamsList, normalizeLocation, hx, hl, hlen,
        capitalizeWords_idem (hloc l hx)]

/-- C9 (counterexample): the location normalisation of the URL builder is
not idempotent on every input.  JavaScript uppercases the sharp s to the
two-letter SS, so the location consisting of the single letter sharp s
normalises to SS, but re-normalising yields Ss (the tail is lower-cased),
and the built URL differs between the raw and the pre-normalised
parameters. -/
theorem c9_location_normalization_counterexample :
    (capitalizeWords (str "ß") = str "SS") ∧
    (capitalizeWords (capitalizeWords (str "ß")) = str "Ss") ∧
    (capitalizeWords (capitalizeWords (str "ß")) ≠ capitalizeWords (str "ß")) ∧
    (buildSearchUrl (normalizeLocation { location := some (str "ß") }) ≠
       buildSearchUrl { location := some (str "ß") }) := by
  decide

/-- C9 (amended): URL building is a pure, deterministic function of the
parameters, and an absent parameter contributes no key to the query string
(no component of the query starts with the absent parameter's key).  The
location normalisation is idempotent — so building from already-normalised
parameters yields the identical string — for every location over the
Latin-1 repertoire that does not contain the sharp s; it is not idempotent
in general, the sharp s being the expanding case (see the
counterexample). -/
theorem c9_url_builder_amended :
    (∀ s : JSStr, (∀ c ∈ s, c ≤ 255 ∧ c ≠ 223) →
       capitalizeWords (capitalizeWords s) = capitalizeWords s) ∧
    (∀ params : SegmentationSearchParams,
       (∀ l, params.location = some l → ∀ c ∈ l, c ≤ 255 ∧ c ≠ 223) →
       buildSearchUrl (normalizeLocation params) = buildSearchUrl params) ∧
    (∀ params : SegmentationSearchParams, ∀ q ∈ queryParamsList params,
       (params.location = none → isPrefixStr (str "location=") q = false) ∧
       (params.proffIndustryCode = none →
          isPrefixStr (str "proffIndustryCode=") q = false) ∧
       (params.companyType = none → isPrefixStr (str "companyType=") q = false) ∧
       (params.revenueFrom = none → isPrefixStr (str "revenueFrom=") q = false) ∧
       (params.revenueTo = none → isPrefixStr (str "revenueTo=") q = false) ∧
       (params.numEmployeesFrom = none →
          isPrefixStr (str "numEmployeesFrom=") q = false) ∧
       (params.numEmployeesTo = none →
          isPrefixStr (str "numEmployeesTo=") q = false) ∧
       (params.sort = none → isPrefixStr (str "sort=") q = false) ∧
       (params.page = none → isPrefixStr (str "page=") q = false)) := by
  refine ⟨fun s hs => capitalizeWords_idem hs, ?_, ?_⟩
  · intro params hloc
    unfold buildSearchUrl
    rw [queryParamsList_normalizeLocation params hloc]
  · intro params q hq
    have hchar := mem_queryParamsList hq
    refine ⟨?_, ?_, ?_, ?_, ?_, ?_, ?_, ?_, ?_⟩ <;> intro habs <;>
      rcases hchar with ⟨v, hv, rfl⟩ | ⟨v, hv, rfl⟩ | ⟨v, hv, rfl⟩ | ⟨v, hv, rfl⟩ |
        ⟨v, hv, rfl⟩ | ⟨v, hv, rfl⟩ | ⟨v, hv, rfl⟩ | ⟨v, hv, rfl⟩ | ⟨v, hv, rfl⟩ <;>
      first
        | (rw [habs] at hv; exact Option.noConfusion hv)
        | (exact isPrefixStr_false_of_diffEarly (by decide) _)

/-- C9 (witness): the amended theorem evaluated at concrete parameters
carrying only the location "umeå" — a Latin-1 location without a sharp s —
discharging the no-absent-key conjunct for the page parameter and both
idempotence conjuncts. -/
theorem c9_url_builder_amended_witness :
    isPrefixStr (str "page=") (str "location=Ume%C3%A5") = false ∧
    capitalizeWords (capitalizeWords (str "umeå")) = capitalizeWords (str "umeå") ∧
    buildSearchUrl (normalizeLocation { location := some (str "umeå") }) =
      buildSearchUrl { location := some (str "umeå") } :=
  ⟨(c9_url_builder_amended.2.2 { location := some (str "umeå") }
      (str "location=Ume%C3%A5") (by decide)).2.2.2.2.2.2.2.2 rfl,
   c9_url_builder_amended.1 (str "umeå") (by decide),
   c9_url_builder_amended.2.1 { location := some (str "umeå") }
     (by intro l hl; injection hl with h; subst h; decide)⟩

end Allabolag
